import Mathlib

/-!
Verification of the invocation execution and streaming pipeline of squad-api.

The definitions below are a shallow embedding of the Python source:
- `src/squad/invocation/schemas.py`   (the Invocation record)
- `src/squad/invocation/router.py`    (log append, upload, complete, fail, stream)
- `src/squad/invocation/execute.py`   (the in-pod worker runtime)
- `src/squad/invocation/event_listeners.py` (the dispatcher job spec)

Machine-level details that the claims do not touch (database sessions,
authentication middleware, actual byte transport) are abstracted into
explicit state passing; every branch that a claim depends on is embedded
faithfully from the source.
-/

namespace Squad

/-- Invocation status column (`schemas.py`, default "pending"). -/
inductive Status
  | pending
  | success
  | error
deriving DecidableEq, Repr

/-- Creation date of an invocation, the components used to build storage
paths (`router.py` upload_file: year/month/day of `created_at`). -/
structure DateT where
  year : Nat
  month : Nat
  day : Nat
deriving DecidableEq, Repr

/-- The Invocation ORM row (`schemas.py` lines 21-42). `answer` is kept as
an opaque string payload; `completed_at` is a nullable timestamp. -/
structure Invocation where
  invocation_id : String
  agent_id : String
  user_id : String
  source : String
  task : String
  public : Bool
  status : Status
  inputs : List String
  outputs : List String
  answer : Option String
  queue_name : String
  created_at : DateT
  completed_at : Option Nat
deriving DecidableEq, Repr

/-- One entry appended to the per-invocation Redis stream: the JSON object
`(log, timestamp)` passed to `xadd` in `router.py`. -/
structure LogData where
  log : String
  timestamp : String
deriving DecidableEq, Repr

/-- A stored object in the blob store: key and content. -/
structure StoreObj where
  key : String
  content : String
deriving DecidableEq, Repr

/-- Server-side state touched by the invocation router: the invocation row,
the per-invocation Redis stream (payloads in append order) and the object
store. -/
structure SysState where
  inv : Invocation
  stream : List LogData
  store : List StoreObj
deriving DecidableEq, Repr

/-- Sentinel payload appended on terminal transition (`router.py`). -/
def finishedSentinel : String := "__INVOCATION_FINISHED__"

/-- POST /invocations/id/complete (`router.py` mark_complete, lines
398-422): if `completed_at` is already set, raise HTTP 400; otherwise set
`completed_at`, `answer`, `status := success`, commit, and append the
finished sentinel to the stream. Returns the HTTP outcome (error code or
updated record) paired with the new state. -/
def mark_complete (now : Nat) (ts : String) (answerBody : String)
    (s : SysState) : Except Nat Invocation × SysState :=
  if s.inv.completed_at.isSome then
    (Except.error 400, s)
  else
    let inv2 := { s.inv with
      completed_at := some now
      answer := some answerBody
      status := Status.success }
    (Except.ok inv2,
      { s with inv := inv2, stream := s.stream ++ [⟨finishedSentinel, ts⟩] })

/-- POST /invocations/id/fail (`router.py` mark_failed, lines 425-459):
if `completed_at` is already set, raise HTTP 400; otherwise set
`completed_at`, `answer` (the request body), `status := error`, append an
error-description entry and then the finished sentinel. -/
def mark_failed (now : Nat) (ts1 ts2 : String) (errBody : String)
    (s : SysState) : Except Nat Invocation × SysState :=
  if s.inv.completed_at.isSome then
    (Except.error 400, s)
  else
    let inv2 := { s.inv with
      completed_at := some now
      answer := some errBody
      status := Status.error }
    (Except.ok inv2,
      { s with
        inv := inv2
        stream := s.stream ++
          [⟨"Invocation encountered an error: " ++ errBody, ts1⟩,
           ⟨finishedSentinel, ts2⟩] })

/-- The `log` field of the JSON body of POST /invocations/id/log: absent,
a JSON string, or some non-string JSON value. -/
inductive LogField
  | absent
  | jstr (s : String)
  | nonString
deriving DecidableEq, Repr

/-- POST /invocations/id/log (`router.py` append_log, lines 338-356): if
the invocation is already terminal, return "ack" without touching the
stream; otherwise append the line exactly when the `log` field is a truthy
string (`if log and isinstance(log, str)`), i.e. a non-empty string. -/
def append_log (field : LogField) (ts : String) (s : SysState) :
    String × SysState :=
  if s.inv.completed_at.isSome then
    ("ack", s)
  else
    match field with
    | LogField.jstr line =>
        if line = "" then ("ack", s)
        else ("ack", { s with stream := s.stream ++ [⟨line, ts⟩] })
    | _ => ("ack", s)

/-- Storage prefix for output files (`router.py` upload_file):
invocations/year/month/day/invocation_id/outputs/. -/
def outputsBasePath (inv : Invocation) : String :=
  "invocations/" ++ toString inv.created_at.year ++ "/" ++
    toString inv.created_at.month ++ "/" ++ toString inv.created_at.day ++
    "/" ++ inv.invocation_id ++ "/outputs/"

/-- POST /invocations/id/upload (`router.py` upload_file, lines 359-395):
if the invocation is already terminal, raise HTTP 400 before uploading or
writing anything; otherwise store each file under the base path and append
the produced storage paths to `outputs` (SQL array_cat), returning the list
of paths. A file is a (filename, content) pair. -/
def upload_file (files : List (String × String)) (s : SysState) :
    Except Nat (List String) × SysState :=
  if s.inv.completed_at.isSome then
    (Except.error 400, s)
  else
    let base := outputsBasePath s.inv
    let paths := files.map (fun f => base ++ f.1)
    (Except.ok paths,
      { s with
        inv := { s.inv with outputs := s.inv.outputs ++ paths }
        store := s.store ++ files.map (fun f => ⟨base ++ f.1, f.2⟩) })

/-- A concrete already-terminal invocation state, for counterexamples. -/
def stTerm : SysState :=
  { inv := { invocation_id := "inv1", agent_id := "ag1", user_id := "u1",
             source := "api", task := "demo", public := true,
             status := Status.success, inputs := [], outputs := ["p0"],
             answer := some "done", queue_name := "squad-free",
             created_at := ⟨2026, 1, 2⟩, completed_at := some 10 },
    stream := [⟨finishedSentinel, "t0"⟩],
    store := [] }

/-- A concrete pending invocation state. -/
def stPend : SysState :=
  { inv := { invocation_id := "inv2", agent_id := "ag1", user_id := "u1",
             source := "api", task := "demo", public := true,
             status := Status.pending, inputs := ["in/a.txt"], outputs := [],
             answer := none, queue_name := "squad-free",
             created_at := ⟨2026, 1, 2⟩, completed_at := none },
    stream := [],
    store := [] }

/-- C1 counterexample: the claim says a complete call on an
already-terminal invocation "never returns an error" and returns the
existing record; on the concrete terminal state the code raises HTTP 400
(`router.py` lines 407-411), so the response is an error and not the
record. -/
theorem complete_on_terminal_is_http400 :
    (mark_complete 5 "t5" "ans" stTerm).1 = Except.error 400 ∧
      (mark_complete 5 "t5" "ans" stTerm).1 ≠ Except.ok stTerm.inv ∧
      (mark_failed 5 "t5" "t6" "err" stTerm).1 = Except.error 400 := by
  refine ⟨rfl, ?_, rfl⟩
  intro h
  rw [show (mark_complete 5 "t5" "ans" stTerm).1 = Except.error 400 from rfl] at h
  exact Except.noConfusion h

/-- C1 amended: a complete or fail call on an already-terminal invocation
fails with HTTP 400 and performs no second write: the state (status,
answer, completed_at, stream, store) is returned unchanged. -/
theorem terminal_transition_rejected (s : SysState) (now : Nat)
    (ts1 ts2 : String) (ansB errB : String)
    (h : s.inv.completed_at.isSome = true) :
    mark_complete now ts1 ansB s = (Except.error 400, s) ∧
      mark_failed now ts1 ts2 errB s = (Except.error 400, s) := by
  constructor
  · unfold mark_complete
    simp [h]
  · unfold mark_failed
    simp [h]

/-- C1 witness: the amended guarantee evaluated on the concrete terminal
state. -/
theorem terminal_transition_rejected_witness :
    mark_complete 7 "a" "b" stTerm = (Except.error 400, stTerm) ∧
      mark_failed 7 "a" "b" "c" stTerm = (Except.error 400, stTerm) :=
  terminal_transition_rejected stTerm 7 "a" "b" "b" "c" (by decide)

/-- C6 counterexample: the claim says that for every pending invocation
with a string log payload the line is appended; the empty string is a
string payload, yet `if log and isinstance(log, str)` is falsy on it, so
nothing is appended to the pending stream. -/
theorem append_log_empty_string_dropped :
    stPend.inv.completed_at = none ∧
      append_log (LogField.jstr "") "t1" stPend = ("ack", stPend) := by
  exact ⟨rfl, rfl⟩

/-- C6 amended: once the invocation is terminal, append_log is a silent
no-op returning "ack"; for a pending invocation, a NON-EMPTY string log
payload is appended to the stream. -/
theorem append_log_spec (s : SysState) (field : LogField) (ts : String) :
    (s.inv.completed_at.isSome = true → append_log field ts s = ("ack", s)) ∧
      (∀ line : String, s.inv.completed_at = none → line ≠ "" →
        append_log (LogField.jstr line) ts s =
          ("ack", { s with stream := s.stream ++ [⟨line, ts⟩] })) := by
  constructor
  · intro h
    unfold append_log
    simp [h]
  · intro line hp hne
    unfold append_log
    simp [hp, hne]

/-- C6 witness: the amended behavior evaluated on concrete states: a
terminal state acks without change, and a pending state gets the line. -/
theorem append_log_spec_witness :
    append_log (LogField.jstr "hello") "t1" stTerm = ("ack", stTerm) ∧
      append_log (LogField.jstr "hello") "t1" stPend =
        ("ack", { stPend with stream := stPend.stream ++ [⟨"hello", "t1"⟩] }) :=
  ⟨(append_log_spec stTerm (LogField.jstr "hello") "t1").1 (by decide),
   (append_log_spec stPend (LogField.jstr "hello") "t1").2 "hello" rfl
     (by decide)⟩

/-- C10: an upload against an invocation whose completed_at is set fails
with HTTP 400 and leaves the whole state unchanged: outputs list and
stored objects are untouched, and no list of storage paths is returned. -/
theorem upload_on_terminal_rejected (s : SysState)
    (files : List (String × String))
    (h : s.inv.completed_at.isSome = true) :
    upload_file files s = (Except.error 400, s) ∧
      (upload_file files s).2.inv.outputs = s.inv.outputs ∧
      (upload_file files s).2.store = s.store := by
  unfold upload_file
  simp [h]

/-- C10 witness: the rejection evaluated on the concrete terminal state. -/
theorem upload_on_terminal_rejected_witness :
    upload_file [("f.txt", "xyz")] stTerm = (Except.error 400, stTerm) ∧
      (upload_file [("f.txt", "xyz")] stTerm).2.inv.outputs =
        stTerm.inv.outputs ∧
      (upload_file [("f.txt", "xyz")] stTerm).2.store = stTerm.store :=
  upload_on_terminal_rejected stTerm [("f.txt", "xyz")] (by decide)

/-- A freshly created invocation row (`agent/router.py` lines 361-368 plus
the column defaults of `schemas.py`: status "pending", completed_at NULL,
no outputs yet). -/
def newInvocation (iid aid uid task : String) (inputPaths : List String)
    (pub : Bool) (d : DateT) : Invocation :=
  { invocation_id := iid
    agent_id := aid
    user_id := uid
    source := "api"
    task := task
    public := pub
    status := Status.pending
    inputs := inputPaths
    outputs := []
    answer := none
    queue_name := "squad-free"
    created_at := d
    completed_at := none }

/-- One state-mutating router operation of this core. -/
inductive Op
  | complete (now : Nat) (ts : String) (answerBody : String)
  | fail (now : Nat) (ts1 ts2 : String) (errBody : String)
  | upload (files : List (String × String))
  | log (field : LogField) (ts : String)

/-- Apply one operation to the server state, discarding the HTTP
response. -/
def applyOp (op : Op) (s : SysState) : SysState :=
  match op with
  | Op.complete now ts a => (mark_complete now ts a s).2
  | Op.fail now t1 t2 e => (mark_failed now t1 t2 e s).2
  | Op.upload files => (upload_file files s).2
  | Op.log f ts => (append_log f ts s).2

/-- The data-model invariant: completed_at is non-null iff the status is
not pending. -/
def WfInv (inv : Invocation) : Prop :=
  inv.completed_at.isSome = true ↔ inv.status ≠ Status.pending

/-- Once an invocation is terminal, every operation leaves the state
untouched: complete, fail and upload hit the HTTP 400 guard, append_log
acks silently. -/
lemma applyOp_frozen (op : Op) (s : SysState)
    (h : s.inv.completed_at.isSome = true) : applyOp op s = s := by
  cases op <;>
    simp [applyOp, mark_complete, mark_failed, upload_file, append_log, h]

/-- Every operation preserves the completed_at-iff-status invariant. -/
lemma applyOp_wf (op : Op) (s : SysState) (h : WfInv s.inv) :
    WfInv (applyOp op s).inv := by
  by_cases hc : s.inv.completed_at.isSome = true
  · rw [applyOp_frozen op s hc]; exact h
  · cases op with
    | complete now ts a => simp [applyOp, mark_complete, hc, WfInv]
    | fail now t1 t2 e => simp [applyOp, mark_failed, hc, WfInv]
    | upload files => simpa [applyOp, upload_file, hc, WfInv] using h
    | log f ts =>
        rcases f with _ | line | _
        · simpa [applyOp, append_log, hc, WfInv] using h
        · by_cases he : line = "" <;>
            simpa [applyOp, append_log, hc, he, WfInv] using h
        · simpa [applyOp, append_log, hc, WfInv] using h

/-- Every operation can only append to the outputs list. -/
lemma applyOp_outputs_mono (op : Op) (s : SysState) :
    ∃ added, (applyOp op s).inv.outputs = s.inv.outputs ++ added := by
  by_cases hc : s.inv.completed_at.isSome = true
  · exact ⟨[], by simp [applyOp_frozen op s hc]⟩
  · cases op with
    | complete now ts a => exact ⟨[], by simp [applyOp, mark_complete, hc]⟩
    | fail now t1 t2 e => exact ⟨[], by simp [applyOp, mark_failed, hc]⟩
    | upload files =>
        exact ⟨files.map (fun f => outputsBasePath s.inv ++ f.1),
          by simp [applyOp, upload_file, hc]⟩
    | log f ts =>
        rcases f with _ | line | _
        · exact ⟨[], by simp [applyOp, append_log, hc]⟩
        · by_cases he : line = ""
          · exact ⟨[], by simp [applyOp, append_log, hc, he]⟩
          · exact ⟨[], by simp [applyOp, append_log, hc, he]⟩
        · exact ⟨[], by simp [applyOp, append_log, hc]⟩

/-- C8: a freshly created invocation satisfies the invariant (null
completed_at, pending status), every operation of this core preserves the
invariant, completed_at never changes once non-null, and outputs only ever
grows by appending. -/
theorem invocation_invariants (op : Op) (s : SysState) (h : WfInv s.inv) :
    WfInv (newInvocation "i" "a" "u" "t" [] true ⟨2026, 1, 1⟩) ∧
      WfInv (applyOp op s).inv ∧
      (∀ t, s.inv.completed_at = some t →
        (applyOp op s).inv.completed_at = some t) ∧
      ∃ added, (applyOp op s).inv.outputs = s.inv.outputs ++ added := by
  refine ⟨?_, applyOp_wf op s h, ?_, applyOp_outputs_mono op s⟩
  · simp [WfInv, newInvocation]
  · intro t ht
    rw [applyOp_frozen op s (by simp [ht])]
    exact ht

/-- C8 witness: the invariants evaluated for a complete call on the
concrete pending state. -/
theorem invocation_invariants_witness :
    WfInv stPend.inv ∧
      (WfInv (newInvocation "i" "a" "u" "t" [] true ⟨2026, 1, 1⟩) ∧
        WfInv (applyOp (Op.complete 3 "ts" "ans") stPend).inv ∧
        (∀ t, stPend.inv.completed_at = some t →
          (applyOp (Op.complete 3 "ts" "ans") stPend).inv.completed_at =
            some t) ∧
        ∃ added, (applyOp (Op.complete 3 "ts" "ans") stPend).inv.outputs =
          stPend.inv.outputs ++ added) :=
  ⟨by unfold WfInv; decide,
   invocation_invariants (Op.complete 3 "ts" "ans") stPend
     (by unfold WfInv; decide)⟩

/-! Worker runtime (`execute.py`). -/

/-- Terminal report posted by the worker (`execute.py` _mark_complete,
lines 71-84): with no error, POST complete carrying the parsed final
answer artifact read from outputs; with an error, POST fail carrying the
reason string. -/
inductive FinalReport
  | complete (answer : String)
  | fail (reason : String)
deriving DecidableEq, Repr

/-- The branch inside _mark_complete on its error argument. -/
def mark_complete_call (finalAnswer : String) : Option String → FinalReport
  | none => FinalReport.complete finalAnswer
  | some err => FinalReport.fail err

/-- Failure reason computed from the subprocess returncode
(`execute.py` lines 316-323): none when the exit code is zero, otherwise
the bad-exit-code message embedding the code. -/
def exitFailureReason (returncode : Int) : Option String :=
  if returncode = 0 then none
  else some ("Bad exit code from subprocess: " ++ toString returncode)

/-- Terminal report for a normal (non-timeout) subprocess exit
(`execute.py` lines 308-324 and the final call at line 363). -/
def normalExitReport (returncode : Int) (finalAnswer : String) : FinalReport :=
  mark_complete_call finalAnswer (exitFailureReason returncode)

/-- C4: exit code 0 is reported as success via the complete call with the
result artifact; every non-zero exit code n is reported via the fail call
with a reason string containing n. -/
theorem exit_code_reporting (rc : Int) (ans : String) :
    (rc = 0 → normalExitReport rc ans = FinalReport.complete ans) ∧
      (rc ≠ 0 → ∃ p q, normalExitReport rc ans =
        FinalReport.fail (p ++ toString rc ++ q)) := by
  constructor
  · intro h
    simp [normalExitReport, exitFailureReason, mark_complete_call, h]
  · intro h
    refine ⟨"Bad exit code from subprocess: ", "", ?_⟩
    simp [normalExitReport, exitFailureReason, mark_complete_call, h]

/-- C4 witness: exit 0 completes with the artifact, and exit 137 fails
with "137" inside the reason. -/
theorem exit_code_reporting_witness :
    normalExitReport 0 "hi" = FinalReport.complete "hi" ∧
      ∃ p q, normalExitReport 137 "hi" = FinalReport.fail (p ++ "137" ++ q) :=
  ⟨(exit_code_reporting 0 "hi").1 rfl,
   (exit_code_reporting 137 "hi").2 (by decide)⟩

/-- Observable outcome of the worker loop around the child process
(`execute.py` lines 308-346): either the control flow reaches the final
_mark_complete call with some failure reason, or the await never
returns. -/
inductive RunOutcome
  | reported (failureReason : Option String)
  | hangs
deriving DecidableEq, Repr

/-- Behavior of the child subprocess: exits with a code after some
wall-clock elapsed time, or never exits. -/
inductive ProcBehavior
  | exits (code : Int) (elapsed : Nat)
  | neverExits
deriving DecidableEq, Repr

/-- The worker awaits the child with a bare `await process.wait()`
(`execute.py` line 310): no `asyncio.wait_for` and no deadline argument
appear anywhere around it, so the `except asyncio.TimeoutError` handler at
line 325 cannot fire. The await returns exactly when the child exits,
regardless of any configured deadline, which therefore does not occur in
this definition. -/
def executeWaitOutcome (behavior : ProcBehavior) (_deadline : Nat) :
    RunOutcome :=
  match behavior with
  | ProcBehavior.exits code _ => RunOutcome.reported (exitFailureReason code)
  | ProcBehavior.neverExits => RunOutcome.hangs

/-- C3 (code bug): the worker enforces no wall-clock deadline. A child
that never exits makes the run hang forever for every configured deadline,
and a child that exits normally long past the deadline is still reported
as a normal exit (here: success after 100000 s against a 300 s deadline),
never killed and never reported as a timeout. -/
theorem deadline_not_enforced :
    (∀ d, executeWaitOutcome ProcBehavior.neverExits d = RunOutcome.hangs) ∧
      executeWaitOutcome (ProcBehavior.exits 0 100000) 300 =
        RunOutcome.reported none :=
  ⟨fun _ => rfl, rfl⟩

/-- Semantics of `backoff.on_exception(backoff.constant, Exception,
max_tries = n)`: run the wrapped action; while it raises and tries remain,
run it again. Returns the final result and the number of attempts made. -/
def backoffGo (action : Nat → Except String α) :
    Nat → Nat → Except String α × Nat
  | 0, k => (Except.error "backoff: no tries", k)
  | fuel + 1, k =>
      match action k with
      | Except.ok a => (Except.ok a, k + 1)
      | Except.error e =>
          if fuel = 0 then (Except.error e, k + 1)
          else backoffGo action fuel (k + 1)

/-- The decorator applied with its attempt cap. -/
def backoffRetry (maxTries : Nat) (action : Nat → Except String α) :
    Except String α × Nat :=
  backoffGo action maxTries 0

/-- Body of `_download` (`execute.py` lines 34-46): the entire body sits
inside a try/except Exception whose handler only logs, so one attempt
returns the local path on success and None on any failure — it never
raises. `fetch` abstracts the HTTP GET and local file write of one
attempt. -/
def downloadBody (fetch : Except String String) :
    Except String (Option String) :=
  match fetch with
  | Except.ok localPath => Except.ok (some localPath)
  | Except.error _ => Except.ok none

/-- `_download` as decorated (`execute.py` lines 27-47): constant-interval
backoff with max_tries = 7 wrapped around a body that never raises. -/
def download (fetch : Nat → Except String String) :
    Except String (Option String) × Nat :=
  backoffRetry 7 (fun k => downloadBody (fetch k))

/-- For comparison, the retry loop the spec words describe for input
downloads: the attempt propagates its failure so the decorator can retry
up to the attempt cap. -/
def downloadAsSpecified (fetch : Nat → Except String String) :
    Except String String × Nat :=
  backoffRetry 7 fetch

/-- C9 (code bug): on a fetch that always fails, `_download` makes exactly
one attempt and returns None — the inner catch-all swallows the exception
so the backoff decorator never retries; it also never raises, so the
gather in `execute` proceeds and the subprocess is still launched. Had the
body propagated failures as the spec describes, the same fetch would be
attempted 7 times. -/
theorem download_failure_single_attempt :
    download (fun _ => Except.error "net down") = (Except.ok none, 1) ∧
      (∀ fetch : Nat → Except String String,
        ((download fetch).1).isOk = true) ∧
      downloadAsSpecified (fun _ => Except.error "net down") =
        (Except.error "net down", 7) := by
  refine ⟨rfl, ?_, rfl⟩
  intro fetch
  cases h : fetch 0 <;>
    simp [download, backoffRetry, backoffGo, downloadBody, h, Except.isOk,
      Except.toBool]

/-- One iteration input of the `_log_writer` loop (`execute.py` lines
202-237): a decoded line handed over by the queue, a 1-second timeout with
no new line (asyncio.TimeoutError from wait_for), or the None sentinel
marking the end of the producer streams. -/
inductive WriterEvent
  | line (s : String)
  | timeout
  | eof
deriving DecidableEq, Repr

/-- Mutable state of `_log_writer`: the batch buffer, its character
counter, and (for observation) everything written to the local log
file. -/
structure WriterState where
  buffer : List String
  charCount : Nat
  fileLines : List String
deriving DecidableEq, Repr

/-- Result of one loop iteration: the new state, the payloads passed to
_ship_log during the iteration, and whether the loop breaks. -/
structure WriterStep where
  state : WriterState
  sent : List String
  halt : Bool
deriving DecidableEq, Repr

/-- Buffered lines joined the way the writer ships them. -/
def joinLines (buf : List String) : String := String.intercalate "\n" buf

/-- One iteration of the `_log_writer` loop. On timeout: ship and clear a
non-empty buffer, reset the counter. On the None sentinel: write and ship
a non-empty buffer, then break. On a line: write it to the file, bump the
counter by its length, and if the counter reached 512 with a non-empty
buffer, ship the buffered lines and reset before appending the new line
(lines arrive already stripped of their trailing newline by
_capture_logs). -/
def writerStep (st : WriterState) : WriterEvent → WriterStep
  | WriterEvent.timeout =>
      if st.buffer.isEmpty then ⟨st, [], false⟩
      else ⟨⟨[], 0, st.fileLines⟩, [joinLines st.buffer], false⟩
  | WriterEvent.eof =>
      if st.buffer.isEmpty then ⟨st, [], true⟩
      else
        ⟨⟨st.buffer, st.charCount, st.fileLines ++ [joinLines st.buffer]⟩,
          [joinLines st.buffer], true⟩
  | WriterEvent.line l =>
      let fl := st.fileLines ++ [l]
      let cc := st.charCount + l.length
      if 512 ≤ cc then
        if st.buffer.isEmpty then ⟨⟨st.buffer ++ [l], cc, fl⟩, [], false⟩
        else ⟨⟨[l], 0, fl⟩, [joinLines st.buffer], false⟩
      else ⟨⟨st.buffer ++ [l], cc, fl⟩, [], false⟩

/-- The writer loop over a list of events, collecting everything shipped;
it stops at the first halting iteration. -/
def runWriter (st : WriterState) : List WriterEvent → WriterState × List String
  | [] => (st, [])
  | ev :: rest =>
      let step := writerStep st ev
      if step.halt then (step.state, step.sent)
      else
        let next := runWriter step.state rest
        (next.1, step.sent ++ next.2)

/-- Processing a line always leaves a non-empty buffer and never halts. -/
lemma writerStep_line_buffer (st : WriterState) (l : String) :
    (writerStep st (WriterEvent.line l)).state.buffer ≠ [] ∧
      (writerStep st (WriterEvent.line l)).halt = false := by
  unfold writerStep
  by_cases hc : 512 ≤ st.charCount + l.length
  · by_cases hb : st.buffer.isEmpty <;> simp [hc, hb]
  · simp [hc]

/-- A run over at least one line, closed by the end-of-stream sentinel,
ships at least one batch: the last line survives in the buffer until some
flush (512-triggered or the final drain) ships it. -/
lemma runWriter_lines_ship (ls : List String) (st : WriterState)
    (h : ls ≠ [] ∨ st.buffer ≠ []) :
    (runWriter st (ls.map WriterEvent.line ++ [WriterEvent.eof])).2 ≠ [] := by
  induction ls generalizing st with
  | nil =>
      rcases h with h | h
      · exact absurd rfl h
      · have hb : st.buffer.isEmpty = false := by
          cases hbuf : st.buffer with
          | nil => exact absurd hbuf h
          | cons x xs => simp [hbuf]
        simp [runWriter, writerStep, hb]
  | cons l rest ih =>
      have hstep := writerStep_line_buffer st l
      simp only [List.map_cons, List.cons_append, runWriter, hstep.2,
        if_false, Bool.false_eq_true]
      have htail :=
        ih (writerStep st (WriterEvent.line l)).state (Or.inr hstep.1)
      intro hcontra
      exact htail (by
        rcases List.append_eq_nil.mp hcontra with ⟨_, h2⟩
        exact h2)

/-- C2: a batch is shipped at an iteration exactly when a line arrival
brings the accumulated character count to 512 or more with lines buffered,
or the 1-second timeout fires with lines buffered, or the end-of-stream
drain finds lines buffered; a non-empty buffer followed by a 1-second
pause is flushed as one joined batch with the counter reset; and a
sequence of lines totalling 512 or more characters with no pause ships at
least one batch before the writer ends. -/
theorem log_writer_batching (st : WriterState) (ev : WriterEvent)
    (ls : List String)
    (htotal : 512 ≤ (ls.map String.length).sum) :
    ((writerStep st ev).sent ≠ [] ↔
      ((ev = WriterEvent.timeout ∧ st.buffer ≠ []) ∨
        (∃ l, ev = WriterEvent.line l ∧
          512 ≤ st.charCount + l.length ∧ st.buffer ≠ []) ∨
        (ev = WriterEvent.eof ∧ st.buffer ≠ []))) ∧
      (st.buffer ≠ [] → writerStep st WriterEvent.timeout =
        ⟨⟨[], 0, st.fileLines⟩, [joinLines st.buffer], false⟩) ∧
      (runWriter ⟨[], 0, []⟩
        (ls.map WriterEvent.line ++ [WriterEvent.eof])).2 ≠ [] := by
  have hls : ls ≠ [] := by
    intro hnil
    rw [hnil] at htotal
    simp at htotal
  refine ⟨?_, ?_, runWriter_lines_ship ls ⟨[], 0, []⟩ (Or.inl hls)⟩
  · cases ev with
    | timeout =>
        by_cases hb : st.buffer.isEmpty
        · have hbnil : st.buffer = [] := List.isEmpty_iff.mp hb
          simp [writerStep, hb, hbnil]
        · have hbf : st.buffer.isEmpty = false := Bool.eq_false_iff.mpr hb
          have hbne : st.buffer ≠ [] := by
            simpa [List.isEmpty_iff] using hb
          simp [writerStep, hbf, hbne]
    | eof =>
        by_cases hb : st.buffer.isEmpty
        · have hbnil : st.buffer = [] := List.isEmpty_iff.mp hb
          simp [writerStep, hb, hbnil]
        · have hbf : st.buffer.isEmpty = false := Bool.eq_false_iff.mpr hb
          have hbne : st.buffer ≠ [] := by
            simpa [List.isEmpty_iff] using hb
          simp [writerStep, hbf, hbne]
    | line l =>
        by_cases hc : 512 ≤ st.charCount + l.length
        · by_cases hb : st.buffer.isEmpty
          · have hbnil : st.buffer = [] := List.isEmpty_iff.mp hb
            simp [writerStep, hc, hb, hbnil]
          · have hbf : st.buffer.isEmpty = false := Bool.eq_false_iff.mpr hb
            have hbne : st.buffer ≠ [] := by
              simpa [List.isEmpty_iff] using hb
            simp [writerStep, hc, hbf, hbne]
        · simp [writerStep, hc]
  · intro hb
    have hbe : st.buffer.isEmpty = false := by
      cases hbuf : st.buffer with
      | nil => exact absurd hbuf hb
      | cons x xs => simp [hbuf]
    simp [writerStep, hbe]

/-- C2 witness: both flush triggers evaluated concretely: a timeout on a
one-line buffer ships it, and 64 eight-character lines (512 characters,
no pause) ship at least one batch. -/
theorem log_writer_batching_witness :
    512 ≤ ((List.replicate 64 "abcdefgh").map String.length).sum ∧
      writerStep ⟨["x"], 1, []⟩ WriterEvent.timeout =
        ⟨⟨[], 0, []⟩, [joinLines ["x"]], false⟩ ∧
      (runWriter ⟨[], 0, []⟩
        ((List.replicate 64 "abcdefgh").map WriterEvent.line ++
          [WriterEvent.eof])).2 ≠ [] :=
  ⟨by decide,
   (log_writer_batching ⟨["x"], 1, []⟩ WriterEvent.timeout
      (List.replicate 64 "abcdefgh") (by decide)).2.1 (by decide),
   (log_writer_batching ⟨["x"], 1, []⟩ WriterEvent.timeout
      (List.replicate 64 "abcdefgh") (by decide)).2.2⟩

/-! Log relay streaming (`router.py` stream_invocation, lines 258-318). -/

/-- Redis stream id as used by the relay: a sequence part and an element
index, compared lexicographically. -/
abbrev Offset := Nat × Nat

/-- Strict lexicographic order on stream ids: appended entries carry
strictly increasing ids. -/
def offLt (a b : Offset) : Bool :=
  decide (a.1 < b.1) || (decide (a.1 = b.1) && decide (a.2 < b.2))

/-- Non-strict lexicographic order: XRANGE with start k returns the
entries whose id is at least k. -/
def offLe (a b : Offset) : Bool :=
  decide (a.1 < b.1) || (decide (a.1 = b.1) && decide (a.2 ≤ b.2))

/-- Resume cursor annotated on a yielded frame (`router.py` lines
301-303): the entry id with its element index incremented by one. -/
def cursorOf (o : Offset) : Offset := (o.1, o.2 + 1)

/-- One persisted entry of a per-invocation stream. -/
structure Entry where
  offset : Offset
  log : String
deriving DecidableEq, Repr

/-- XRANGE over the per-invocation log (`router.py` lines 287-289): from
the very beginning when no offset was given ("-"), otherwise every entry
with id at least the given cursor. -/
def xrange (log : List Entry) : Option Offset → List Entry
  | none => log
  | some k => log.filter (fun e => offLe k e.offset)

/-- The frame loop (`router.py` lines 298-316): each entry yields a frame
of its payload and the incremented resume offset; the loop stops right
after yielding the frame of the finished sentinel. -/
def yieldFrames : List Entry → List (String × Offset)
  | [] => []
  | e :: rest =>
      if e.log = finishedSentinel then [(e.log, cursorOf e.offset)]
      else (e.log, cursorOf e.offset) :: yieldFrames rest

/-- The tail operation: the frames yielded when streaming from an optional
starting offset over the entries of one invocation. -/
def streamTail (log : List Entry) (start : Option Offset) :
    List (String × Offset) :=
  yieldFrames (xrange log start)

/-- The cursor of a smaller id stays at or below any strictly larger id:
there is no id strictly between an entry id and its cursor. -/
lemma offLe_cursorOf_of_lt {a b : Offset} (h : offLt a b = true) :
    offLe (cursorOf a) b = true := by
  rcases a with ⟨a1, a2⟩
  rcases b with ⟨b1, b2⟩
  simp [offLt] at h
  simp [offLe, cursorOf]
  omega

/-- An entry id is strictly below its own cursor. -/
lemma not_offLe_cursorOf_self (a : Offset) : ¬offLe (cursorOf a) a = true := by
  rcases a with ⟨a1, a2⟩
  simp [offLe, cursorOf]

/-- Ids at or below an entry are strictly below its cursor. -/
lemma not_offLe_cursorOf_of_lt {x e : Offset} (h : offLt x e = true) :
    ¬offLe (cursorOf e) x = true := by
  rcases x with ⟨x1, x2⟩
  rcases e with ⟨e1, e2⟩
  simp [offLt] at h
  simp [offLe, cursorOf]
  omega

/-- Reading from the cursor of an entry of a sorted log returns exactly
the entries after it. -/
lemma xrange_from_cursor (pre post : List Entry) (e : Entry)
    (hsorted : (pre ++ e :: post).Pairwise
      (fun a b => offLt a.offset b.offset = true)) :
    xrange (pre ++ e :: post) (some (cursorOf e.offset)) = post := by
  have hp := List.pairwise_append.mp hsorted
  have hpre : ∀ x ∈ pre, offLt x.offset e.offset = true := fun x hx =>
    hp.2.2 x hx e (List.mem_cons_self e post)
  have hpost : ∀ b ∈ post, offLt e.offset b.offset = true :=
    (List.pairwise_cons.mp hp.2.1).1
  have hx : xrange (pre ++ e :: post) (some (cursorOf e.offset)) =
      List.filter (fun x => offLe (cursorOf e.offset) x.offset)
        (pre ++ e :: post) := rfl
  rw [hx, List.filter_append,
    List.filter_eq_nil_iff.mpr
      (fun x hx => not_offLe_cursorOf_of_lt (hpre x hx)),
    List.filter_cons, if_neg (not_offLe_cursorOf_self e.offset),
    List.filter_eq_self.mpr
      (fun b hb => offLe_cursorOf_of_lt (hpost b hb)),
    List.nil_append]

/-- With no sentinel among the entries, the frame loop yields every entry
in order, annotated with its resume cursor. -/
lemma yieldFrames_plain (l : List Entry)
    (h : ∀ e ∈ l, e.log ≠ finishedSentinel) :
    yieldFrames l = l.map (fun e => (e.log, cursorOf e.offset)) := by
  induction l with
  | nil => rfl
  | cons e rest ih =>
      have he : e.log ≠ finishedSentinel := h e (List.mem_cons_self e rest)
      simp [yieldFrames, he,
        ih (fun x hx => h x (List.mem_cons_of_mem e hx))]

/-- C5: over a per-invocation log with strictly increasing ids and no
sentinel payload, tailing from the initial offset yields all N appended
lines in append order, and resuming from the cursor carried by the frame
of any entry yields exactly the entries appended after it — in order, no
duplicates, no gaps. -/
theorem stream_resumption (log : List Entry)
    (hsorted : log.Pairwise (fun a b => offLt a.offset b.offset = true))
    (hplain : ∀ e ∈ log, e.log ≠ finishedSentinel) :
    streamTail log none = log.map (fun e => (e.log, cursorOf e.offset)) ∧
      ∀ pre e post, log = pre ++ e :: post →
        streamTail log (some (cursorOf e.offset)) =
          post.map (fun p => (p.log, cursorOf p.offset)) := by
  constructor
  · unfold streamTail xrange
    exact yieldFrames_plain log hplain
  · intro pre e post heq
    subst heq
    unfold streamTail
    rw [xrange_from_cursor pre post e hsorted]
    exact yieldFrames_plain post (fun x hx =>
      hplain x (List.mem_append.mpr (Or.inr (List.mem_cons_of_mem e hx))))

/-- A concrete three-entry log with composite ids. -/
def entA : Entry := ⟨(1, 0), "a"⟩

def entB : Entry := ⟨(1, 1), "b"⟩

def entC : Entry := ⟨(2, 0), "c"⟩

def log3 : List Entry := [entA, entB, entC]

/-- C5 witness: on the concrete three-entry log, tailing from the start
yields the three frames in order and resuming from the cursor of the
second entry yields exactly the third. -/
theorem stream_resumption_witness :
    streamTail log3 none =
        [("a", (1, 1)), ("b", (1, 2)), ("c", (2, 1))] ∧
      streamTail log3 (some (cursorOf entB.offset)) = [("c", (2, 1))] :=
  ⟨by
    rw [(stream_resumption log3 (by decide) (by decide)).1]
    rfl,
   by
    rw [(stream_resumption log3 (by decide) (by decide)).2
      [entA] entB [entC] rfl]
    rfl⟩

/-! Dispatcher job specification (`event_listeners.py`). -/

/-- The job specification fields this core controls
(`event_listeners.py` create_invocation_job, lines 82-191). Fields the
code never sets are modelled with the kubernetes client defaults: an unset
active deadline and unset container resources. -/
structure JobSpec where
  restartPolicy : String
  backoffLimit : Nat
  ttlSecondsAfterFinished : Option Nat
  activeDeadlineSeconds : Option Nat
  containerResources : Option String
  labels : List (String × String)
  command : List String
deriving DecidableEq, Repr

/-- The job submitted on invocation creation (`event_listeners.py` lines
90-183): restart policy Never with backoff limit 0, TTL 180 seconds after
finishing, labels and the execute command derived from the invocation; no
active_deadline_seconds and no container resources appear anywhere in the
construction, and queue_name is never read. -/
def create_invocation_job (inv : Invocation) : JobSpec :=
  { restartPolicy := "Never"
    backoffLimit := 0
    ttlSecondsAfterFinished := some 180
    activeDeadlineSeconds := none
    containerResources := none
    labels := [("app", "execution"), ("agent-id", inv.agent_id),
      ("user-id", inv.user_id)]
    command := ["poetry", "run", "python", "squad/invocation/execute.py",
      "--id", "id:" ++ inv.invocation_id] }

/-- C7 counterexample: on the concrete pending invocation the submitted
job has no active deadline at all (so it cannot equal the agent max
execution time plus a grace margin) and no resources, and changing the
queue tier changes nothing in the job specification. -/
theorem job_spec_missing_deadline_and_resources :
    (create_invocation_job stPend.inv).activeDeadlineSeconds = none ∧
      (create_invocation_job stPend.inv).containerResources = none ∧
      create_invocation_job
          { stPend.inv with queue_name := "squad-premium" } =
        create_invocation_job stPend.inv :=
  ⟨rfl, rfl, rfl⟩

/-- C7 amended: for every invocation the dispatcher submits a
non-restarting job (restart policy Never, backoff limit 0) that is
TTL-cleaned 180 seconds after completion; it sets no active deadline and
no resource requests or limits, and the queue tier does not influence the
job specification. -/
theorem job_spec_amended (inv : Invocation) :
    (create_invocation_job inv).restartPolicy = "Never" ∧
      (create_invocation_job inv).backoffLimit = 0 ∧
      (create_invocation_job inv).ttlSecondsAfterFinished = some 180 ∧
      (create_invocation_job inv).activeDeadlineSeconds = none ∧
      (create_invocation_job inv).containerResources = none ∧
      ∀ q : String, create_invocation_job { inv with queue_name := q } =
        create_invocation_job inv :=
  ⟨rfl, rfl, rfl, rfl, rfl, fun _ => rfl⟩

end Squad
